import Mathlib

/-!
Shallow embedding of the clog contextual-logging library.

The Go package binds a zap logger handle, a shared atomic level cell and an
error-key name to a context value, and exposes per-severity emit functions.
We model:
  * zapcore levels as integers (Debug = -1, Info = 0, Warn = 1, Error = 2,
    Panic = 4) with `Enabled lvl = lvl >= threshold`;
  * the atomic level cells as a store (`LevelStore`), indexed by allocation
    order, threaded explicitly through the stateful operations;
  * a context as a list of keyed entries, most recent first, exactly the
    lookup discipline of Go's `context.WithValue`/`Value`;
  * a logger handle as the atomic-cell reference, the fields accumulated by
    the backend core via `With`, the registered entry/field callbacks, and
    the wrapper's own accumulated context fields (the corrected
    `entryFieldCallbacks` of src/unnamed/part_000, which matches
    `hooksLogger` in src/hooks.go);
  * each callback abstractly by whether invoking it panics; emission returns
    the field list handed to each invoked callback, the backend writes, and
    whether control returns normally to the caller.
-/

namespace Clog

/-- zapcore.DebugLevel. -/
def DebugLevel : Int := -1

/-- zapcore.InfoLevel. -/
def InfoLevel : Int := 0

/-- zapcore.WarnLevel. -/
def WarnLevel : Int := 1

/-- zapcore.ErrorLevel. -/
def ErrorLevel : Int := 2

/-- zapcore.PanicLevel. -/
def PanicLevel : Int := 4

/-- DefaultLevel is the default logging level. -/
def DefaultLevel : Int := InfoLevel

/-- DefaultMessageKey is the default key that has the log message as value. -/
def DefaultMessageKey : String := "msg"

/-- DefaultEncoding is the default logging encoding. -/
def DefaultEncoding : String := "console"

/-- DefaultLevelKey is the default key that has the LogLevel value. -/
def DefaultLevelKey : String := "severity"

/-- DefaultErrorKey is the default key for errors logged with WithError. -/
def DefaultErrorKey : String := "error"

/-- DefaultTimeKey is the default key that holds the timestamp. -/
def DefaultTimeKey : String := "time"

/-- zapcore `(l Level).Enabled(lvl)` is `lvl >= l`. -/
def levelEnabled (threshold lvl : Int) : Bool := decide (lvl ≥ threshold)

/-- The store of atomic level cells, one per root context, indexed by
allocation order (`zap.NewAtomicLevelAt` in `Context`). -/
abbrev LevelStore := List Int

/-- Read an atomic level cell. -/
def levelGet (s : LevelStore) (r : Nat) : Int := s.getD r InfoLevel

/-- A structured field value (`any` in Go; enough constructors for concrete
records, including the value a `zap.NamedError` field wraps). -/
inductive Value where
  | vStr : String → Value
  | vInt : Int → Value
  | vErr : String → Value
deriving DecidableEq, Repr

/-- A zap field: key and value. -/
structure Field where
  key : String
  val : Value
deriving DecidableEq, Repr

/-- Build a field from a key/value pair. -/
def mkField (kv : String × Value) : Field := ⟨kv.1, kv.2⟩

/-- A zapcore.Entry: level and message (timestamps are out of scope). -/
structure Entry where
  level : Int
  msg : String
deriving DecidableEq, Repr

/-- A record persisted by the backend writer. -/
structure Record where
  level : Int
  msg : String
  fields : List Field
deriving DecidableEq, Repr

/-- A zap logger handle as configured by `Context` and derived by `With`:
`levelRef` points at the atomic level cell the config was built with,
`coreFields` are the fields the backend ioCore accumulated via `With`,
`cbs` are the entry/field callbacks registered at construction (each modelled
by whether invoking it panics), and `cbContext` is the wrapper's own
accumulated context (field of the corrected `entryFieldCallbacks`). -/
structure Logger where
  levelRef : Nat
  coreFields : List Field
  cbs : List Bool
  cbContext : List Field
deriving DecidableEq, Repr

/-- zap `Logger.With` / `entryFieldCallbacks.With`: the inner core keeps the
fields for encoding and the wrapper appends them to its own context. -/
def Logger.With (lg : Logger) (fs : List Field) : Logger :=
  { lg with coreFields := lg.coreFields ++ fs, cbContext := lg.cbContext ++ fs }

/-- One entry of a Go context chain: the three keys this package stores
(`loggerKey`, `levelKey`, `errorKey`) plus unrelated values other code may
have attached. -/
inductive CtxEntry where
  | loggerV : Logger → CtxEntry
  | levelV : Nat → CtxEntry
  | errKeyV : String → CtxEntry
  | otherV : Nat → CtxEntry
deriving DecidableEq, Repr

/-- A Go context: entries most recent first; `Value` returns the first hit. -/
abbrev Ctx := List CtxEntry

/-- `ctx.Value(loggerKey).(*zap.Logger)`. -/
def loggerOf : Ctx → Option Logger
  | [] => none
  | .loggerV lg :: _ => some lg
  | _ :: rest => loggerOf rest

/-- `ctx.Value(levelKey).(*zap.AtomicLevel)`. -/
def levelRefOf : Ctx → Option Nat
  | [] => none
  | .levelV r :: _ => some r
  | _ :: rest => levelRefOf rest

/-- `ctx.Value(errorKey).(string)`. -/
def errKeyOf : Ctx → Option String
  | [] => none
  | .errKeyV k :: _ => some k
  | _ :: rest => errKeyOf rest

/-- Per-record options, mirroring the `Option` closures `WithError`,
`WithField` and `WithFields` as tagged variants applied in order. -/
inductive Opt where
  | withError : Option String → Opt
  | withField : String → Value → Opt
  | withFields : List (String × Value) → Opt
deriving DecidableEq, Repr

/-- The mutable `options` record the closures write into. -/
structure options where
  err : Option String
  fields : List (String × Value)
deriving DecidableEq, Repr

/-- Go map assignment `m[k] = v` on the insertion-ordered model of the map. -/
def mapSet : List (String × Value) → String → Value → List (String × Value)
  | [], k, v => [(k, v)]
  | (k0, v0) :: rest, k, v =>
      if k0 = k then (k, v) :: rest else (k0, v0) :: mapSet rest k v

/-- `opts[i](o)`: the body of each option closure. `WithError` sets `o.err`
(possibly to nil), `WithField`/`WithFields` assign into `o.fields`. -/
def applyOpt (o : options) : Opt → options
  | .withError e => { o with err := e }
  | .withField k v => { o with fields := mapSet o.fields k v }
  | .withFields fs =>
      { o with fields := fs.foldl (fun m kv => mapSet m kv.1 kv.2) o.fields }

/-- The error key used by `getFields`: the context's `errorKey` entry when
present, else `DefaultErrorKey`. -/
def errKeyName (ctx : Ctx) : String := (errKeyOf ctx).getD DefaultErrorKey

/-- `getFields(ctx, opts)`: fold the options into a fresh `options` record,
emit the field map, then append a named-error field when `o.err != nil`. -/
def getFields (ctx : Ctx) (opts : List Opt) : List Field :=
  let o := opts.foldl applyOpt ⟨none, []⟩
  let zf := o.fields.map mkField
  match o.err with
  | some e => zf ++ [⟨errKeyName ctx, .vErr e⟩]
  | none => zf

/-- Invoke the callbacks in registration order on the given field list.
A callback that panics stops the loop (there is no `recover` in the
source); returns the field list each invoked callback observed, in order,
and whether a panic escaped. -/
def runCbs : List Bool → List Field → List (List Field) × Bool
  | [], _ => ([], false)
  | b :: rest, fs =>
      if b then ([fs], true)
      else
        let p := runCbs rest fs
        (fs :: p.1, p.2)

/-- Outcome of one pass through the writer chain. -/
structure WriteOut where
  hookObs : List (List Field)
  writes : List Record
  panicked : Bool
deriving DecidableEq, Repr

/-- `entryFieldCallbacks.Write` in its corrected form (src/unnamed/part_000,
identical in behaviour to `hooksLogger.Write` in src/hooks.go): hand
`context ++ fields` to every callback, then delegate the unmerged `fields`
to the wrapped core, which prepends its own `coreFields` when encoding. -/
def efcWrite (cbs : List Bool) (context coreFields : List Field)
    (entry : Entry) (fields : List Field) : WriteOut :=
  let allFields := context ++ fields
  let r := runCbs cbs allFields
  if r.2 then ⟨r.1, [], true⟩
  else ⟨r.1, [⟨entry.level, entry.msg, coreFields ++ fields⟩], false⟩

/-- `entryFieldCallbacks.Write` as in src/ctx_callback.go (the first draft,
superseded by src/unnamed/part_000): callbacks receive only the call-site
fields. Kept for reference; nothing below depends on it. -/
def efcWriteOld (cbs : List Bool) (coreFields : List Field)
    (entry : Entry) (fields : List Field) : WriteOut :=
  let r := runCbs cbs fields
  if r.2 then ⟨r.1, [], true⟩
  else ⟨r.1, [⟨entry.level, entry.msg, coreFields ++ fields⟩], false⟩

/-- `logger.<Severity>(msg, fields...)`: zap checks the core's enabler (the
shared atomic cell) and, when enabled, routes the entry through the wrapper
chain. -/
def loggerLog (store : LevelStore) (lg : Logger) (lvl : Int) (msg : String)
    (callFields : List Field) : WriteOut :=
  if levelEnabled (levelGet store lg.levelRef) lvl then
    efcWrite lg.cbs lg.cbContext lg.coreFields ⟨lvl, msg⟩ callFields
  else ⟨[], [], false⟩

/-- Observable outcome of a facade emit call: whether `getFields` ran (i.e.
whether the option closures were applied and a per-call field record built),
what each callback observed, the backend writes, and whether the call
returns normally to its caller. -/
structure EmitResult where
  getFieldsRan : Bool
  hookObs : List (List Field)
  writes : List Record
  returnsNormally : Bool
deriving DecidableEq, Repr

/-- The silent no-op result. -/
def noEmit : EmitResult := ⟨false, [], [], true⟩

/-- `DebugEnabled(ctx)`. -/
def DebugEnabled (store : LevelStore) (ctx : Ctx) : Bool :=
  match loggerOf ctx with
  | none => false
  | some lg => levelEnabled (levelGet store lg.levelRef) DebugLevel

/-- `InfoEnabled(ctx)`. -/
def InfoEnabled (store : LevelStore) (ctx : Ctx) : Bool :=
  match loggerOf ctx with
  | none => false
  | some lg => levelEnabled (levelGet store lg.levelRef) InfoLevel

/-- `WarnEnabled(ctx)`. -/
def WarnEnabled (store : LevelStore) (ctx : Ctx) : Bool :=
  match loggerOf ctx with
  | none => false
  | some lg => levelEnabled (levelGet store lg.levelRef) WarnLevel

/-- `ErrorEnabled(ctx)`. -/
def ErrorEnabled (store : LevelStore) (ctx : Ctx) : Bool :=
  match loggerOf ctx with
  | none => false
  | some lg => levelEnabled (levelGet store lg.levelRef) ErrorLevel

/-- `Debug(ctx, msg, opts...)`: gated on `DebugEnabled` first, then looks
the logger up again and delegates. -/
def Debug (store : LevelStore) (ctx : Ctx) (msg : String)
    (opts : List Opt) : EmitResult :=
  if !DebugEnabled store ctx then noEmit
  else
    match loggerOf ctx with
    | none => noEmit
    | some lg =>
        let w := loggerLog store lg DebugLevel msg (getFields ctx opts)
        ⟨true, w.hookObs, w.writes, !w.panicked⟩

/-- `Info(ctx, msg, opts...)`. -/
def Info (store : LevelStore) (ctx : Ctx) (msg : String)
    (opts : List Opt) : EmitResult :=
  match loggerOf ctx with
  | none => noEmit
  | some lg =>
      if !levelEnabled (levelGet store lg.levelRef) InfoLevel then noEmit
      else
        let w := loggerLog store lg InfoLevel msg (getFields ctx opts)
        ⟨true, w.hookObs, w.writes, !w.panicked⟩

/-- `Warn(ctx, msg, opts...)`. -/
def Warn (store : LevelStore) (ctx : Ctx) (msg : String)
    (opts : List Opt) : EmitResult :=
  match loggerOf ctx with
  | none => noEmit
  | some lg =>
      if !levelEnabled (levelGet store lg.levelRef) WarnLevel then noEmit
      else
        let w := loggerLog store lg WarnLevel msg (getFields ctx opts)
        ⟨true, w.hookObs, w.writes, !w.panicked⟩

/-- `Error(ctx, msg, opts...)`. -/
def Error (store : LevelStore) (ctx : Ctx) (msg : String)
    (opts : List Opt) : EmitResult :=
  match loggerOf ctx with
  | none => noEmit
  | some lg =>
      if !levelEnabled (levelGet store lg.levelRef) ErrorLevel then noEmit
      else
        let w := loggerLog store lg ErrorLevel msg (getFields ctx opts)
        ⟨true, w.hookObs, w.writes, !w.panicked⟩

/-- `Panic(ctx, msg, opts...)`: after a successful write at PanicLevel zap
panics, so the call never returns normally once the gate passes. -/
def Panic (store : LevelStore) (ctx : Ctx) (msg : String)
    (opts : List Opt) : EmitResult :=
  match loggerOf ctx with
  | none => noEmit
  | some lg =>
      if !levelEnabled (levelGet store lg.levelRef) PanicLevel then noEmit
      else
        let w := loggerLog store lg PanicLevel msg (getFields ctx opts)
        ⟨true, w.hookObs, w.writes, false⟩

/-- The `contextOptions` record `Context` folds its options into. -/
structure contextOptions where
  encoding : String
  level : Int
  outputPath : String
  levelKey : String
  msgKey : String
  timeKey : String
  errorKey : String
  entryFieldCallbacks : List Bool
deriving Repr

/-- A `ContextOption` closure. -/
abbrev ContextOption := contextOptions → contextOptions

/-- `WithLevel(level)`. -/
def WithLevel (level : Int) : ContextOption :=
  fun o => { o with level := level }

/-- `WithJSONEncoding()`. -/
def WithJSONEncoding : ContextOption :=
  fun o => { o with encoding := "json" }

/-- `WithConsoleEncoding()`. -/
def WithConsoleEncoding : ContextOption :=
  fun o => { o with encoding := "console" }

/-- `OutputToStdout()`. -/
def OutputToStdout : ContextOption :=
  fun o => { o with outputPath := "stdout" }

/-- `WithLevelKey(key)`. -/
def WithLevelKey (key : String) : ContextOption :=
  fun o => { o with levelKey := key }

/-- `WithMessageKey(key)`. -/
def WithMessageKey (key : String) : ContextOption :=
  fun o => { o with msgKey := key }

/-- `WithTimeKey(key)`. -/
def WithTimeKey (key : String) : ContextOption :=
  fun o => { o with timeKey := key }

/-- `WithNoTimeKey()`. -/
def WithNoTimeKey : ContextOption :=
  fun o => { o with timeKey := "" }

/-- `WithErrorKey(key)`. -/
def WithErrorKey (key : String) : ContextOption :=
  fun o => { o with errorKey := key }

/-- `WithEntryFieldCallbacks(cbs...)`. -/
def WithEntryFieldCallbacks (cbs : List Bool) : ContextOption :=
  fun o => { o with entryFieldCallbacks := o.entryFieldCallbacks ++ cbs }

/-- The defaults `Context` starts from. -/
def defaultContextOptions : contextOptions :=
  ⟨DefaultEncoding, DefaultLevel, "stderr", DefaultLevelKey,
    DefaultMessageKey, DefaultTimeKey, DefaultErrorKey, []⟩

/-- Fold the `ContextOption`s over the defaults. -/
def resolveOpts (opts : List ContextOption) : contextOptions :=
  opts.foldl (fun acc f => f acc) defaultContextOptions

/-- `Context(parent, opts...)`: allocate a fresh atomic level cell at the
configured level, build a logger over it (wrapped with the callback core
when callbacks were registered; an empty `cbs` list is the unwrapped
logger), and stack the three context values, `errorKey` outermost. Returns
the grown store alongside the new context. -/
def Context (store : LevelStore) (parent : Ctx)
    (opts : List ContextOption) : LevelStore × Ctx :=
  let o := resolveOpts opts
  let r := store.length
  let logger : Logger := ⟨r, [], o.entryFieldCallbacks, []⟩
  (store ++ [o.level],
    .errKeyV o.errorKey :: .levelV r :: .loggerV logger :: parent)

/-- `CopyContext(to, from)`: attach `from`'s logger handle onto `to`; `to`
unchanged when `from` carries none (`to`/`from` are keywords here, hence
`toCtx`/`fromCtx`). -/
def CopyContext (toCtx fromCtx : Ctx) : Ctx :=
  match loggerOf fromCtx with
  | none => toCtx
  | some lg => .loggerV lg :: toCtx

/-- `ContextWithField(parent, k, v)`. -/
def ContextWithField (parent : Ctx) (k : String) (v : Value) : Ctx :=
  match loggerOf parent with
  | none => parent
  | some lg => .loggerV (lg.With [⟨k, v⟩]) :: parent

/-- `ContextWithFields(parent, fields)` (map iteration modelled in the
association list's order). -/
def ContextWithFields (parent : Ctx) (fields : List (String × Value)) : Ctx :=
  match loggerOf parent with
  | none => parent
  | some lg => .loggerV (lg.With (fields.map mkField)) :: parent

/-- `SetLevel(ctx, level)`: write the shared atomic cell the context points
at; no-op without one. -/
def SetLevel (store : LevelStore) (ctx : Ctx) (level : Int) : LevelStore :=
  match levelRefOf ctx with
  | none => store
  | some r => store.set r level

/-- A chain of `ContextWithField` derivations applied in order. -/
def deriveChain (ctx : Ctx) (ds : List (String × Value)) : Ctx :=
  ds.foldl (fun c kv => ContextWithField c kv.1 kv.2) ctx

/-- Stated from the spec's words, for comparison against `getFields`: the
error supplied by the last `WithError` option in the list (`none` when no
`WithError` occurs or the last one carried a nil error). -/
def lastErr (opts : List Opt) : Option String :=
  opts.foldl (fun acc o => match o with | .withError e => e | _ => acc) none

/-! ### Helper lemmas -/

theorem levelEnabled_iff (t l : Int) : levelEnabled t l = true ↔ l ≥ t := by
  simp [levelEnabled]

theorem runCbs_nopanic (fs : List Field) :
    ∀ cbs : List Bool, (∀ b ∈ cbs, b = false) →
      runCbs cbs fs = (cbs.map fun _ => fs, false) := by
  intro cbs
  induction cbs with
  | nil => intro _; rfl
  | cons b rest ih =>
      intro h
      have hb : b = false := h b (List.mem_cons_self _ _)
      have hrest : ∀ x ∈ rest, x = false := fun x hx => h x (List.mem_cons_of_mem _ hx)
      subst hb
      simp [runCbs, ih hrest]

theorem efcWrite_nopanic (cbs : List Bool) (cc cf : List Field) (e : Entry)
    (fs : List Field) (h : ∀ b ∈ cbs, b = false) :
    efcWrite cbs cc cf e fs =
      ⟨cbs.map fun _ => cc ++ fs, [⟨e.level, e.msg, cf ++ fs⟩], false⟩ := by
  simp [efcWrite, runCbs_nopanic _ cbs h]

theorem loggerLog_nopanic_writes (store : LevelStore) (lg : Logger) (lvl : Int)
    (msg : String) (cf : List Field) (h : ∀ b ∈ lg.cbs, b = false) :
    (loggerLog store lg lvl msg cf).writes.length =
      if lvl ≥ levelGet store lg.levelRef then 1 else 0 := by
  unfold loggerLog
  by_cases he : levelEnabled (levelGet store lg.levelRef) lvl
  · rw [if_pos he, efcWrite_nopanic _ _ _ _ _ h]
    rw [if_pos ((levelEnabled_iff _ _).1 he)]
    rfl
  · rw [if_neg he]
    rw [if_neg (fun hc => he ((levelEnabled_iff _ _).2 hc))]
    rfl

theorem loggerLog_writes_shape (store : LevelStore) (lg : Logger) (lvl : Int)
    (msg : String) (cf : List Field) :
    ∀ rec ∈ (loggerLog store lg lvl msg cf).writes,
      rec = ⟨lvl, msg, lg.coreFields ++ cf⟩ := by
  unfold loggerLog efcWrite
  by_cases he : levelEnabled (levelGet store lg.levelRef) lvl
  · rw [if_pos he]
    by_cases hp : (runCbs lg.cbs (lg.cbContext ++ cf)).2
    · simp [hp]
    · simp [hp]
  · rw [if_neg he]
    simp

theorem Debug_writes_length (store : LevelStore) (ctx : Ctx) (lg : Logger)
    (msg : String) (opts : List Opt)
    (hlg : loggerOf ctx = some lg) (hcb : ∀ b ∈ lg.cbs, b = false) :
    (Debug store ctx msg opts).writes.length =
      if DebugLevel ≥ levelGet store lg.levelRef then 1 else 0 := by
  unfold Debug DebugEnabled
  rw [hlg]
  by_cases he : levelEnabled (levelGet store lg.levelRef) DebugLevel
  · simp only [he, Bool.not_true, Bool.false_eq_true, if_false]
    exact loggerLog_nopanic_writes store lg DebugLevel msg (getFields ctx opts) hcb
  · simp only [Bool.not_eq_true] at he
    simp only [he, Bool.not_false, if_true, noEmit]
    rw [if_neg (fun hc => by simp [(levelEnabled_iff _ _).2 hc] at he)]
    rfl

theorem Info_writes_length (store : LevelStore) (ctx : Ctx) (lg : Logger)
    (msg : String) (opts : List Opt)
    (hlg : loggerOf ctx = some lg) (hcb : ∀ b ∈ lg.cbs, b = false) :
    (Info store ctx msg opts).writes.length =
      if InfoLevel ≥ levelGet store lg.levelRef then 1 else 0 := by
  unfold Info
  rw [hlg]
  by_cases he : levelEnabled (levelGet store lg.levelRef) InfoLevel
  · simp only [he, Bool.not_true, Bool.false_eq_true, if_false]
    exact loggerLog_nopanic_writes store lg InfoLevel msg (getFields ctx opts) hcb
  · simp only [Bool.not_eq_true] at he
    simp only [he, Bool.not_false, if_true, noEmit]
    rw [if_neg (fun hc => by simp [(levelEnabled_iff _ _).2 hc] at he)]
    rfl

theorem Warn_writes_length (store : LevelStore) (ctx : Ctx) (lg : Logger)
    (msg : String) (opts : List Opt)
    (hlg : loggerOf ctx = some lg) (hcb : ∀ b ∈ lg.cbs, b = false) :
    (Warn store ctx msg opts).writes.length =
      if WarnLevel ≥ levelGet store lg.levelRef then 1 else 0 := by
  unfold Warn
  rw [hlg]
  by_cases he : levelEnabled (levelGet store lg.levelRef) WarnLevel
  · simp only [he, Bool.not_true, Bool.false_eq_true, if_false]
    exact loggerLog_nopanic_writes store lg WarnLevel msg (getFields ctx opts) hcb
  · simp only [Bool.not_eq_true] at he
    simp only [he, Bool.not_false, if_true, noEmit]
    rw [if_neg (fun hc => by simp [(levelEnabled_iff _ _).2 hc] at he)]
    rfl

theorem Error_writes_length (store : LevelStore) (ctx : Ctx) (lg : Logger)
    (msg : String) (opts : List Opt)
    (hlg : loggerOf ctx = some lg) (hcb : ∀ b ∈ lg.cbs, b = false) :
    (Error store ctx msg opts).writes.length =
      if ErrorLevel ≥ levelGet store lg.levelRef then 1 else 0 := by
  unfold Error
  rw [hlg]
  by_cases he : levelEnabled (levelGet store lg.levelRef) ErrorLevel
  · simp only [he, Bool.not_true, Bool.false_eq_true, if_false]
    exact loggerLog_nopanic_writes store lg ErrorLevel msg (getFields ctx opts) hcb
  · simp only [Bool.not_eq_true] at he
    simp only [he, Bool.not_false, if_true, noEmit]
    rw [if_neg (fun hc => by simp [(levelEnabled_iff _ _).2 hc] at he)]
    rfl

theorem Panic_writes_length (store : LevelStore) (ctx : Ctx) (lg : Logger)
    (msg : String) (opts : List Opt)
    (hlg : loggerOf ctx = some lg) (hcb : ∀ b ∈ lg.cbs, b = false) :
    (Panic store ctx msg opts).writes.length =
      if PanicLevel ≥ levelGet store lg.levelRef then 1 else 0 := by
  unfold Panic
  rw [hlg]
  by_cases he : levelEnabled (levelGet store lg.levelRef) PanicLevel
  · simp only [he, Bool.not_true, Bool.false_eq_true, if_false]
    exact loggerLog_nopanic_writes store lg PanicLevel msg (getFields ctx opts) hcb
  · simp only [Bool.not_eq_true] at he
    simp only [he, Bool.not_false, if_true, noEmit]
    rw [if_neg (fun hc => by simp [(levelEnabled_iff _ _).2 hc] at he)]
    rfl

theorem contextWithField_of_logger (ctx : Ctx) (lg : Logger) (k : String)
    (v : Value) (h : loggerOf ctx = some lg) :
    ContextWithField ctx k v = .loggerV (lg.With [⟨k, v⟩]) :: ctx := by
  unfold ContextWithField
  rw [h]

theorem loggerOf_deriveChain :
    ∀ (ds : List (String × Value)) (ctx : Ctx) (lg : Logger),
      loggerOf ctx = some lg →
      loggerOf (deriveChain ctx ds) =
        some { lg with coreFields := lg.coreFields ++ ds.map mkField,
                       cbContext := lg.cbContext ++ ds.map mkField } := by
  intro ds
  induction ds with
  | nil => intro ctx lg h; simpa [deriveChain] using h
  | cons d rest ih =>
      intro ctx lg h
      have hstep : deriveChain ctx (d :: rest) =
          deriveChain (ContextWithField ctx d.1 d.2) rest := rfl
      rw [hstep, contextWithField_of_logger ctx lg d.1 d.2 h]
      have h2 : loggerOf (CtxEntry.loggerV (lg.With [⟨d.1, d.2⟩]) :: ctx) =
          some (lg.With [⟨d.1, d.2⟩]) := rfl
      rw [ih _ _ h2]
      simp [Logger.With, mkField]

theorem levelRefOf_contextWithField (ctx : Ctx) (k : String) (v : Value) :
    levelRefOf (ContextWithField ctx k v) = levelRefOf ctx := by
  unfold ContextWithField
  cases h : loggerOf ctx with
  | none => rfl
  | some lg => rfl

theorem errKeyOf_contextWithField (ctx : Ctx) (k : String) (v : Value) :
    errKeyOf (ContextWithField ctx k v) = errKeyOf ctx := by
  unfold ContextWithField
  cases h : loggerOf ctx with
  | none => rfl
  | some lg => rfl

theorem levelRefOf_deriveChain :
    ∀ (ds : List (String × Value)) (ctx : Ctx),
      levelRefOf (deriveChain ctx ds) = levelRefOf ctx := by
  intro ds
  induction ds with
  | nil => intro ctx; rfl
  | cons d rest ih =>
      intro ctx
      have hstep : deriveChain ctx (d :: rest) =
          deriveChain (ContextWithField ctx d.1 d.2) rest := rfl
      rw [hstep, ih, levelRefOf_contextWithField]

theorem errKeyOf_deriveChain :
    ∀ (ds : List (String × Value)) (ctx : Ctx),
      errKeyOf (deriveChain ctx ds) = errKeyOf ctx := by
  intro ds
  induction ds with
  | nil => intro ctx; rfl
  | cons d rest ih =>
      intro ctx
      have hstep : deriveChain ctx (d :: rest) =
          deriveChain (ContextWithField ctx d.1 d.2) rest := rfl
      rw [hstep, ih, errKeyOf_contextWithField]

theorem Context_loggerOf (store : LevelStore) (parent : Ctx)
    (opts : List ContextOption) :
    loggerOf (Context store parent opts).2 =
      some ⟨store.length, [], (resolveOpts opts).entryFieldCallbacks, []⟩ := rfl

theorem Context_levelRefOf (store : LevelStore) (parent : Ctx)
    (opts : List ContextOption) :
    levelRefOf (Context store parent opts).2 = some store.length := rfl

theorem Context_store (store : LevelStore) (parent : Ctx)
    (opts : List ContextOption) :
    (Context store parent opts).1 = store ++ [(resolveOpts opts).level] := rfl

/-! ### Claim C1 -/

/-- C1: on a configured logging context whose level controller holds
threshold `T = levelGet store lg.levelRef` (and whose registered callbacks
do not panic), each of the five emit functions forwards exactly one record
to the backend writer when its severity `S` satisfies `S ≥ T`, and forwards
nothing when `S < T`. -/
theorem C1_emit_write_iff_threshold (store : LevelStore) (ctx : Ctx)
    (lg : Logger) (msg : String) (opts : List Opt)
    (hlg : loggerOf ctx = some lg) (hcb : ∀ b ∈ lg.cbs, b = false) :
    ((Debug store ctx msg opts).writes.length =
        if DebugLevel ≥ levelGet store lg.levelRef then 1 else 0)
    ∧ ((Info store ctx msg opts).writes.length =
        if InfoLevel ≥ levelGet store lg.levelRef then 1 else 0)
    ∧ ((Warn store ctx msg opts).writes.length =
        if WarnLevel ≥ levelGet store lg.levelRef then 1 else 0)
    ∧ ((Error store ctx msg opts).writes.length =
        if ErrorLevel ≥ levelGet store lg.levelRef then 1 else 0)
    ∧ ((Panic store ctx msg opts).writes.length =
        if PanicLevel ≥ levelGet store lg.levelRef then 1 else 0) :=
  ⟨Debug_writes_length store ctx lg msg opts hlg hcb,
    Info_writes_length store ctx lg msg opts hlg hcb,
    Warn_writes_length store ctx lg msg opts hlg hcb,
    Error_writes_length store ctx lg msg opts hlg hcb,
    Panic_writes_length store ctx lg msg opts hlg hcb⟩

/-- C1 witness: a root at the default (Info) threshold forwards one Info
record and no Debug record. -/
theorem C1_emit_write_iff_threshold_witness :
    ((Info (Context [] [] []).1 (Context [] [] []).2 "m" []).writes.length = 1)
    ∧ ((Debug (Context [] [] []).1 (Context [] [] []).2 "m" []).writes.length = 0) := by
  have h := C1_emit_write_iff_threshold (Context [] [] []).1 (Context [] [] []).2
    ⟨0, [], [], []⟩ "m" [] (by rfl) (by simp)
  refine ⟨?_, ?_⟩
  · rw [h.2.1]
    decide
  · rw [h.1]
    decide

theorem loggerLog_enabled_nopanic (store : LevelStore) (lg : Logger)
    (lvl : Int) (msg : String) (cf : List Field)
    (hen : lvl ≥ levelGet store lg.levelRef) (hcb : ∀ b ∈ lg.cbs, b = false) :
    loggerLog store lg lvl msg cf =
      ⟨lg.cbs.map fun _ => lg.cbContext ++ cf,
        [⟨lvl, msg, lg.coreFields ++ cf⟩], false⟩ := by
  unfold loggerLog
  rw [(levelEnabled_iff _ _).2 hen]
  rw [efcWrite_nopanic _ _ _ _ _ hcb]
  rfl

theorem Info_enabled_nopanic (store : LevelStore) (ctx : Ctx) (lg : Logger)
    (msg : String) (opts : List Opt)
    (hlg : loggerOf ctx = some lg)
    (hen : InfoLevel ≥ levelGet store lg.levelRef)
    (hcb : ∀ b ∈ lg.cbs, b = false) :
    Info store ctx msg opts =
      ⟨true, lg.cbs.map (fun _ => lg.cbContext ++ getFields ctx opts),
        [⟨InfoLevel, msg, lg.coreFields ++ getFields ctx opts⟩], true⟩ := by
  unfold Info
  rw [hlg]
  dsimp only
  rw [(levelEnabled_iff _ _).2 hen]
  simp only [Bool.not_true, Bool.false_eq_true, if_false]
  rw [loggerLog_enabled_nopanic store lg InfoLevel msg (getFields ctx opts) hen hcb]
  rfl

/-! ### Claim C2 -/

/-- C2: on a context built by `Context` with registered (non-panicking)
hook callbacks and then derived through any sequence of `ContextWithField`
steps, an enabled Info emit hands every registered callback the full merged
field sequence — the ancestor fields accumulated by the derivations, in
order, followed by the call-site fields — which is exactly the field set the
backend write persists, not just the call-site fields. -/
theorem C2_hooks_observe_full_fields (store0 store : LevelStore)
    (parent : Ctx) (copts : List ContextOption) (ds : List (String × Value))
    (msg : String) (opts : List Opt)
    (hen : InfoLevel ≥ levelGet store store0.length)
    (hcb : ∀ b ∈ (resolveOpts copts).entryFieldCallbacks, b = false) :
    (Info store (deriveChain (Context store0 parent copts).2 ds) msg opts).hookObs
      = (resolveOpts copts).entryFieldCallbacks.map (fun _ =>
          ds.map mkField
            ++ getFields (deriveChain (Context store0 parent copts).2 ds) opts)
    ∧ (Info store (deriveChain (Context store0 parent copts).2 ds) msg opts).writes
      = [⟨InfoLevel, msg,
          ds.map mkField
            ++ getFields (deriveChain (Context store0 parent copts).2 ds) opts⟩] := by
  have hlg := loggerOf_deriveChain ds (Context store0 parent copts).2
    ⟨store0.length, [], (resolveOpts copts).entryFieldCallbacks, []⟩
    (Context_loggerOf store0 parent copts)
  rw [Info_enabled_nopanic store _ _ msg opts hlg (by simpa using hen) (by simpa using hcb)]
  simp

/-- C2 witness: one callback, one ancestor field, one call-site field — the
callback observes both, ancestor first. -/
theorem C2_hooks_observe_full_fields_witness :
    (Info (Context [] [] [WithEntryFieldCallbacks [false]]).1
        (deriveChain (Context [] [] [WithEntryFieldCallbacks [false]]).2
          [("svc", .vStr "x")]) "m" [.withField "k" (.vStr "v")]).hookObs
      = [[⟨"svc", .vStr "x"⟩, ⟨"k", .vStr "v"⟩]] := by
  have h := C2_hooks_observe_full_fields []
    (Context [] [] [WithEntryFieldCallbacks [false]]).1 []
    [WithEntryFieldCallbacks [false]] [("svc", .vStr "x")]
    "m" [.withField "k" (.vStr "v")] (by decide) (by decide)
  rw [h.1]
  decide

/-! ### Claim C3 -/

/-- C3 concerns callback failure containment. The source's callback loop
(`entryFieldCallbacks.Write` in all its versions, and `hooksLogger.Write`)
has no `recover`, so a panicking callback escapes `Write` and the delegation
`c.Core.Write(entry, fields)` on the line after the loop is never reached.
This theorem evaluates the code at the failing input: one registered
callback that panics, an enabled Info emit — the backend receives no write
and the call does not return normally to the caller. -/
theorem C3_callback_panic_suppresses_write :
    ((Info (Context [] [] [WithEntryFieldCallbacks [true]]).1
        (Context [] [] [WithEntryFieldCallbacks [true]]).2 "m" []).writes = [])
    ∧ ((Info (Context [] [] [WithEntryFieldCallbacks [true]]).1
        (Context [] [] [WithEntryFieldCallbacks [true]]).2 "m" []).returnsNormally
        = false)
    ∧ (InfoEnabled (Context [] [] [WithEntryFieldCallbacks [true]]).1
        (Context [] [] [WithEntryFieldCallbacks [true]]).2 = true) := by
  decide

/-! ### More helper lemmas: emit gating and level-cell update -/

theorem levelGet_set_self (s : LevelStore) (r : Nat) (L : Int)
    (h : r < s.length) : levelGet (s.set r L) r = L := by
  have hl : r < (s.set r L).length := by simpa using h
  rw [levelGet, List.getD_eq_getElem _ _ hl]
  simp [List.getElem_set]

theorem Debug_getFieldsRan (store : LevelStore) (ctx : Ctx) (lg : Logger)
    (msg : String) (opts : List Opt) (hlg : loggerOf ctx = some lg) :
    (Debug store ctx msg opts).getFieldsRan =
      levelEnabled (levelGet store lg.levelRef) DebugLevel := by
  unfold Debug DebugEnabled
  rw [hlg]
  dsimp only
  by_cases he : levelEnabled (levelGet store lg.levelRef) DebugLevel
  · simp [he]
  · simp only [Bool.not_eq_true] at he
    simp [he, noEmit]

theorem Info_getFieldsRan (store : LevelStore) (ctx : Ctx) (lg : Logger)
    (msg : String) (opts : List Opt) (hlg : loggerOf ctx = some lg) :
    (Info store ctx msg opts).getFieldsRan =
      levelEnabled (levelGet store lg.levelRef) InfoLevel := by
  unfold Info
  rw [hlg]
  dsimp only
  by_cases he : levelEnabled (levelGet store lg.levelRef) InfoLevel
  · simp [he]
  · simp only [Bool.not_eq_true] at he
    simp [he, noEmit]

theorem Warn_getFieldsRan (store : LevelStore) (ctx : Ctx) (lg : Logger)
    (msg : String) (opts : List Opt) (hlg : loggerOf ctx = some lg) :
    (Warn store ctx msg opts).getFieldsRan =
      levelEnabled (levelGet store lg.levelRef) WarnLevel := by
  unfold Warn
  rw [hlg]
  dsimp only
  by_cases he : levelEnabled (levelGet store lg.levelRef) WarnLevel
  · simp [he]
  · simp only [Bool.not_eq_true] at he
    simp [he, noEmit]

theorem Error_getFieldsRan (store : LevelStore) (ctx : Ctx) (lg : Logger)
    (msg : String) (opts : List Opt) (hlg : loggerOf ctx = some lg) :
    (Error store ctx msg opts).getFieldsRan =
      levelEnabled (levelGet store lg.levelRef) ErrorLevel := by
  unfold Error
  rw [hlg]
  dsimp only
  by_cases he : levelEnabled (levelGet store lg.levelRef) ErrorLevel
  · simp [he]
  · simp only [Bool.not_eq_true] at he
    simp [he, noEmit]

theorem Panic_getFieldsRan (store : LevelStore) (ctx : Ctx) (lg : Logger)
    (msg : String) (opts : List Opt) (hlg : loggerOf ctx = some lg) :
    (Panic store ctx msg opts).getFieldsRan =
      levelEnabled (levelGet store lg.levelRef) PanicLevel := by
  unfold Panic
  rw [hlg]
  dsimp only
  by_cases he : levelEnabled (levelGet store lg.levelRef) PanicLevel
  · simp [he]
  · simp only [Bool.not_eq_true] at he
    simp [he, noEmit]

/-! ### Claim C4 -/

/-- C4: all contexts of one lineage share a single level cell. Build a root
with `Context`, derive two children by arbitrary `ContextWithField` chains
(either chain may be empty, so this covers the root itself and children
obtained before the call), run `SetLevel` through the first; afterwards
every `<Severity>Enabled` and the gate of every emit function, observed
through the second, see exactly the new threshold `L`. -/
theorem C4_setLevel_affects_lineage (store0 : LevelStore) (parent : Ctx)
    (copts : List ContextOption) (ds1 ds2 : List (String × Value)) (L : Int)
    (msg : String) (opts : List Opt) :
    let store := SetLevel (Context store0 parent copts).1
      (deriveChain (Context store0 parent copts).2 ds1) L
    let c2 := deriveChain (Context store0 parent copts).2 ds2
    (DebugEnabled store c2 = decide (DebugLevel ≥ L))
    ∧ (InfoEnabled store c2 = decide (InfoLevel ≥ L))
    ∧ (WarnEnabled store c2 = decide (WarnLevel ≥ L))
    ∧ (ErrorEnabled store c2 = decide (ErrorLevel ≥ L))
    ∧ ((Debug store c2 msg opts).getFieldsRan = decide (DebugLevel ≥ L))
    ∧ ((Info store c2 msg opts).getFieldsRan = decide (InfoLevel ≥ L))
    ∧ ((Warn store c2 msg opts).getFieldsRan = decide (WarnLevel ≥ L))
    ∧ ((Error store c2 msg opts).getFieldsRan = decide (ErrorLevel ≥ L))
    ∧ ((Panic store c2 msg opts).getFieldsRan = decide (PanicLevel ≥ L)) := by
  intro store c2
  have href : levelRefOf (deriveChain (Context store0 parent copts).2 ds1) =
      some store0.length := by
    rw [levelRefOf_deriveChain, Context_levelRefOf]
  have hstore : store =
      (store0 ++ [(resolveOpts copts).level]).set store0.length L := by
    show SetLevel _ _ _ = _
    unfold SetLevel
    rw [href]
    rfl
  have hget : levelGet store store0.length = L := by
    rw [hstore]
    exact levelGet_set_self _ _ _ (by simp)
  have hlg2 := loggerOf_deriveChain ds2 (Context store0 parent copts).2
    ⟨store0.length, [], (resolveOpts copts).entryFieldCallbacks, []⟩
    (Context_loggerOf store0 parent copts)
  refine ⟨?_, ?_, ?_, ?_, ?_, ?_, ?_, ?_, ?_⟩
  · unfold DebugEnabled
    rw [hlg2]
    dsimp only
    rw [hget]
    rfl
  · unfold InfoEnabled
    rw [hlg2]
    dsimp only
    rw [hget]
    rfl
  · unfold WarnEnabled
    rw [hlg2]
    dsimp only
    rw [hget]
    rfl
  · unfold ErrorEnabled
    rw [hlg2]
    dsimp only
    rw [hget]
    rfl
  · rw [Debug_getFieldsRan store c2 _ msg opts hlg2]
    dsimp only
    rw [hget]
    rfl
  · rw [Info_getFieldsRan store c2 _ msg opts hlg2]
    dsimp only
    rw [hget]
    rfl
  · rw [Warn_getFieldsRan store c2 _ msg opts hlg2]
    dsimp only
    rw [hget]
    rfl
  · rw [Error_getFieldsRan store c2 _ msg opts hlg2]
    dsimp only
    rw [hget]
    rfl
  · rw [Panic_getFieldsRan store c2 _ msg opts hlg2]
    dsimp only
    rw [hget]
    rfl

theorem Debug_writes_shape (store : LevelStore) (ctx : Ctx) (lg : Logger)
    (msg : String) (opts : List Opt) (hlg : loggerOf ctx = some lg) :
    ∀ rec ∈ (Debug store ctx msg opts).writes,
      rec = ⟨DebugLevel, msg, lg.coreFields ++ getFields ctx opts⟩ := by
  unfold Debug DebugEnabled
  rw [hlg]
  dsimp only
  by_cases he : levelEnabled (levelGet store lg.levelRef) DebugLevel
  · simp only [he, Bool.not_true, Bool.false_eq_true, if_false]
    exact loggerLog_writes_shape store lg DebugLevel msg (getFields ctx opts)
  · simp only [Bool.not_eq_true] at he
    simp [he, noEmit]

theorem Info_writes_shape (store : LevelStore) (ctx : Ctx) (lg : Logger)
    (msg : String) (opts : List Opt) (hlg : loggerOf ctx = some lg) :
    ∀ rec ∈ (Info store ctx msg opts).writes,
      rec = ⟨InfoLevel, msg, lg.coreFields ++ getFields ctx opts⟩ := by
  unfold Info
  rw [hlg]
  dsimp only
  by_cases he : levelEnabled (levelGet store lg.levelRef) InfoLevel
  · simp only [he, Bool.not_true, Bool.false_eq_true, if_false]
    exact loggerLog_writes_shape store lg InfoLevel msg (getFields ctx opts)
  · simp only [Bool.not_eq_true] at he
    simp [he, noEmit]

theorem Warn_writes_shape (store : LevelStore) (ctx : Ctx) (lg : Logger)
    (msg : String) (opts : List Opt) (hlg : loggerOf ctx = some lg) :
    ∀ rec ∈ (Warn store ctx msg opts).writes,
      rec = ⟨WarnLevel, msg, lg.coreFields ++ getFields ctx opts⟩ := by
  unfold Warn
  rw [hlg]
  dsimp only
  by_cases he : levelEnabled (levelGet store lg.levelRef) WarnLevel
  · simp only [he, Bool.not_true, Bool.false_eq_true, if_false]
    exact loggerLog_writes_shape store lg WarnLevel msg (getFields ctx opts)
  · simp only [Bool.not_eq_true] at he
    simp [he, noEmit]

theorem Error_writes_shape (store : LevelStore) (ctx : Ctx) (lg : Logger)
    (msg : String) (opts : List Opt) (hlg : loggerOf ctx = some lg) :
    ∀ rec ∈ (Error store ctx msg opts).writes,
      rec = ⟨ErrorLevel, msg, lg.coreFields ++ getFields ctx opts⟩ := by
  unfold Error
  rw [hlg]
  dsimp only
  by_cases he : levelEnabled (levelGet store lg.levelRef) ErrorLevel
  · simp only [he, Bool.not_true, Bool.false_eq_true, if_false]
    exact loggerLog_writes_shape store lg ErrorLevel msg (getFields ctx opts)
  · simp only [Bool.not_eq_true] at he
    simp [he, noEmit]

theorem Panic_writes_shape (store : LevelStore) (ctx : Ctx) (lg : Logger)
    (msg : String) (opts : List Opt) (hlg : loggerOf ctx = some lg) :
    ∀ rec ∈ (Panic store ctx msg opts).writes,
      rec = ⟨PanicLevel, msg, lg.coreFields ++ getFields ctx opts⟩ := by
  unfold Panic
  rw [hlg]
  dsimp only
  by_cases he : levelEnabled (levelGet store lg.levelRef) PanicLevel
  · simp only [he, Bool.not_true, Bool.false_eq_true, if_false]
    exact loggerLog_writes_shape store lg PanicLevel msg (getFields ctx opts)
  · simp only [Bool.not_eq_true] at he
    simp [he, noEmit]

/-! ### Claim C5 -/

/-- C5 counterexample: the claim as stated — that after
`child = ContextWithField(parent, k, v)` emitting through `parent` never
yields a record including `k`, for every configured `parent` and every
key/value — fails when `k` already occurs among `parent`'s accumulated
fields. Concretely: `parent` a root already derived with field `"k"`, and
`child = ContextWithField parent "k" (vInt 1)`; the Info record emitted
through `parent` includes key `"k"`. -/
theorem C5_counterexample :
    ¬ (∀ rec ∈ (Info (Context [] [] []).1
          (ContextWithField (Context [] [] []).2 "k" (.vInt 0)) "m" []).writes,
        "k" ∉ rec.fields.map Field.key) := by
  decide

/-- C5 (amended): for every configured `parent` and every key `k` not
already occurring among `parent`'s accumulated fields nor among the emit
call's per-call fields, deriving `child = ContextWithField parent k v` only
prepends a new logger entry to `parent` — the parent value is untouched —
and emitting through `parent` (at any severity) produces no record
including `k`. -/
theorem C5_parent_unaffected (store : LevelStore) (parent : Ctx)
    (lg : Logger) (k : String) (v : Value) (msg : String) (opts : List Opt)
    (hlg : loggerOf parent = some lg)
    (hk1 : k ∉ lg.coreFields.map Field.key)
    (hk2 : k ∉ (getFields parent opts).map Field.key) :
    (ContextWithField parent k v = .loggerV (lg.With [⟨k, v⟩]) :: parent)
    ∧ (∀ rec ∈ (Debug store parent msg opts).writes,
        k ∉ rec.fields.map Field.key)
    ∧ (∀ rec ∈ (Info store parent msg opts).writes,
        k ∉ rec.fields.map Field.key)
    ∧ (∀ rec ∈ (Warn store parent msg opts).writes,
        k ∉ rec.fields.map Field.key)
    ∧ (∀ rec ∈ (Error store parent msg opts).writes,
        k ∉ rec.fields.map Field.key)
    ∧ (∀ rec ∈ (Panic store parent msg opts).writes,
        k ∉ rec.fields.map Field.key) := by
  have hfresh : k ∉ (lg.coreFields ++ getFields parent opts).map Field.key := by
    rw [List.map_append]
    simp only [List.mem_append]
    exact fun h => h.elim (fun h1 => hk1 h1) (fun h2 => hk2 h2)
  refine ⟨contextWithField_of_logger parent lg k v hlg, ?_, ?_, ?_, ?_, ?_⟩
  · intro rec hr
    rw [Debug_writes_shape store parent lg msg opts hlg rec hr]
    exact hfresh
  · intro rec hr
    rw [Info_writes_shape store parent lg msg opts hlg rec hr]
    exact hfresh
  · intro rec hr
    rw [Warn_writes_shape store parent lg msg opts hlg rec hr]
    exact hfresh
  · intro rec hr
    rw [Error_writes_shape store parent lg msg opts hlg rec hr]
    exact hfresh
  · intro rec hr
    rw [Panic_writes_shape store parent lg msg opts hlg rec hr]
    exact hfresh

/-- C5 witness: on a fresh root, the Info record emitted through the parent
after deriving a `"k"` child does not carry key `"k"`. -/
theorem C5_parent_unaffected_witness :
    "k" ∉ (Record.mk InfoLevel "m" []).fields.map Field.key :=
  (C5_parent_unaffected (Context [] [] []).1 (Context [] [] []).2
      ⟨0, [], [], []⟩ "k" (.vInt 1) "m" [] rfl (by decide) (by decide)).2.2.1
    ⟨InfoLevel, "m", []⟩ (by decide)

/-! ### Claim C6 -/

/-- C6: on a context that was never initialised by `Context` (it carries
neither a logger handle nor a level cell), every emit function is the silent
no-op `noEmit` (no observation, no write, normal return), every
`<Severity>Enabled` returns `false`, `SetLevel` leaves the store untouched,
and `ContextWithField`/`ContextWithFields`/`CopyContext` return their input
context unchanged. -/
theorem C6_unconfigured_noop (store : LevelStore) (ctx toCtx : Ctx)
    (msg : String) (opts : List Opt) (k : String) (v : Value)
    (fs : List (String × Value)) (L : Int)
    (hlg : loggerOf ctx = none) (hlr : levelRefOf ctx = none) :
    Debug store ctx msg opts = noEmit
    ∧ Info store ctx msg opts = noEmit
    ∧ Warn store ctx msg opts = noEmit
    ∧ Error store ctx msg opts = noEmit
    ∧ Panic store ctx msg opts = noEmit
    ∧ DebugEnabled store ctx = false
    ∧ InfoEnabled store ctx = false
    ∧ WarnEnabled store ctx = false
    ∧ ErrorEnabled store ctx = false
    ∧ SetLevel store ctx L = store
    ∧ ContextWithField ctx k v = ctx
    ∧ ContextWithFields ctx fs = ctx
    ∧ CopyContext toCtx ctx = toCtx := by
  refine ⟨?_, ?_, ?_, ?_, ?_, ?_, ?_, ?_, ?_, ?_, ?_, ?_, ?_⟩
  · simp [Debug, DebugEnabled, hlg]
  · simp [Info, hlg]
  · simp [Warn, hlg]
  · simp [Error, hlg]
  · simp [Panic, hlg]
  · simp [DebugEnabled, hlg]
  · simp [InfoEnabled, hlg]
  · simp [WarnEnabled, hlg]
  · simp [ErrorEnabled, hlg]
  · simp [SetLevel, hlr]
  · simp [ContextWithField, hlg]
  · simp [ContextWithFields, hlg]
  · simp [CopyContext, hlg]

/-- C6 witness: a context holding only an unrelated value. -/
theorem C6_unconfigured_noop_witness :
    Info [] [CtxEntry.otherV 7] "m" [] = noEmit
    ∧ ContextWithField [CtxEntry.otherV 7] "k" (.vInt 1) = [CtxEntry.otherV 7] := by
  obtain ⟨h1, h2, h3, h4, h5, h6, h7, h8, h9, h10, h11, h12, h13⟩ :=
    C6_unconfigured_noop [] [CtxEntry.otherV 7] [] "m" [] "k" (.vInt 1) [] 0
      rfl rfl
  exact ⟨h2, h11⟩

/-! ### Claim C7 -/

/-- C7: when the severity is disabled under the current threshold — or the
context is not configured at all — the emit functions return before calling
`getFields`: no option closure is applied and no per-call field record is
built (`getFieldsRan = false`). -/
theorem C7_disabled_skips_option_eval (store : LevelStore) (ctx : Ctx)
    (msg : String) (opts : List Opt) :
    (DebugEnabled store ctx = false →
      (Debug store ctx msg opts).getFieldsRan = false)
    ∧ (InfoEnabled store ctx = false →
      (Info store ctx msg opts).getFieldsRan = false)
    ∧ (WarnEnabled store ctx = false →
      (Warn store ctx msg opts).getFieldsRan = false)
    ∧ (ErrorEnabled store ctx = false →
      (Error store ctx msg opts).getFieldsRan = false)
    ∧ (loggerOf ctx = none →
      (Panic store ctx msg opts).getFieldsRan = false)
    ∧ (∀ lg, loggerOf ctx = some lg →
      levelEnabled (levelGet store lg.levelRef) PanicLevel = false →
      (Panic store ctx msg opts).getFieldsRan = false) := by
  refine ⟨?_, ?_, ?_, ?_, ?_, ?_⟩
  · intro h
    simp [Debug, h, noEmit]
  · intro h
    cases hc : loggerOf ctx with
    | none => simp [Info, hc, noEmit]
    | some lg =>
        have hl : levelEnabled (levelGet store lg.levelRef) InfoLevel = false := by
          unfold InfoEnabled at h
          rw [hc] at h
          exact h
        rw [Info_getFieldsRan store ctx lg msg opts hc, hl]
  · intro h
    cases hc : loggerOf ctx with
    | none => simp [Warn, hc, noEmit]
    | some lg =>
        have hl : levelEnabled (levelGet store lg.levelRef) WarnLevel = false := by
          unfold WarnEnabled at h
          rw [hc] at h
          exact h
        rw [Warn_getFieldsRan store ctx lg msg opts hc, hl]
  · intro h
    cases hc : loggerOf ctx with
    | none => simp [Error, hc, noEmit]
    | some lg =>
        have hl : levelEnabled (levelGet store lg.levelRef) ErrorLevel = false := by
          unfold ErrorEnabled at h
          rw [hc] at h
          exact h
        rw [Error_getFieldsRan store ctx lg msg opts hc, hl]
  · intro h
    simp [Panic, h, noEmit]
  · intro lg hc hl
    rw [Panic_getFieldsRan store ctx lg msg opts hc, hl]

/-- C7 witness: on a root configured at Error level, an Info emit carrying a
per-call field option never builds the field record. -/
theorem C7_disabled_skips_option_eval_witness :
    (Info (Context [] [] [WithLevel ErrorLevel]).1
        (Context [] [] [WithLevel ErrorLevel]).2 "m"
        [.withField "expensive" (.vInt 1)]).getFieldsRan = false :=
  (C7_disabled_skips_option_eval (Context [] [] [WithLevel ErrorLevel]).1
      (Context [] [] [WithLevel ErrorLevel]).2 "m"
      [.withField "expensive" (.vInt 1)]).2.1 (by decide)

/-! ### Claim C8 -/

/-- C8: `CopyContext to from` returns `to` unchanged when `from` carries no
logger handle; otherwise it returns `to` extended with exactly `from`'s
logger handle, and the level-cell and error-key entries visible on the
result are those of `to`, not copied from `from`. -/
theorem C8_copyContext_semantics (toCtx fromCtx : Ctx) :
    (loggerOf fromCtx = none → CopyContext toCtx fromCtx = toCtx)
    ∧ (∀ lg, loggerOf fromCtx = some lg →
        CopyContext toCtx fromCtx = .loggerV lg :: toCtx
        ∧ loggerOf (CopyContext toCtx fromCtx) = some lg
        ∧ levelRefOf (CopyContext toCtx fromCtx) = levelRefOf toCtx
        ∧ errKeyOf (CopyContext toCtx fromCtx) = errKeyOf toCtx) := by
  constructor
  · intro h
    simp [CopyContext, h]
  · intro lg h
    have hc : CopyContext toCtx fromCtx = .loggerV lg :: toCtx := by
      simp [CopyContext, h]
    refine ⟨hc, ?_, ?_, ?_⟩ <;> rw [hc] <;> rfl

/-- C8 witness: copying from a logger-less context is the identity on the
target, and copying from a configured context does not transport its level
cell (the source carries cell 5; the result still resolves none, as the
target has no cell). -/
theorem C8_copyContext_semantics_witness :
    CopyContext [CtxEntry.otherV 1] [CtxEntry.otherV 2] = [CtxEntry.otherV 1]
    ∧ levelRefOf (CopyContext [CtxEntry.otherV 1]
        [CtxEntry.loggerV ⟨0, [], [], []⟩, CtxEntry.levelV 5]) = none := by
  constructor
  · exact (C8_copyContext_semantics [CtxEntry.otherV 1] [CtxEntry.otherV 2]).1 rfl
  · have h := (C8_copyContext_semantics [CtxEntry.otherV 1]
      [CtxEntry.loggerV ⟨0, [], [], []⟩, CtxEntry.levelV 5]).2 ⟨0, [], [], []⟩ rfl
    rw [h.2.2.1]
    rfl

/-! ### Claim C9 -/

/-- C9: on a configured context with PanicLevel enabled (and non-panicking
hooks), `Panic` first delegates exactly one record to the backend — built
with the same accumulated-fields-plus-`getFields` handling as the other
severities — and then does not return normally to its caller; on a
non-configured context it is the silent no-op (which does return
normally). -/
theorem C9_panic_logs_then_aborts (store : LevelStore) (ctx : Ctx)
    (msg : String) (opts : List Opt) :
    (∀ lg, loggerOf ctx = some lg → (∀ b ∈ lg.cbs, b = false) →
        PanicLevel ≥ levelGet store lg.levelRef →
        (Panic store ctx msg opts).writes =
          [⟨PanicLevel, msg, lg.coreFields ++ getFields ctx opts⟩]
        ∧ (Panic store ctx msg opts).returnsNormally = false)
    ∧ (loggerOf ctx = none →
        Panic store ctx msg opts = noEmit
        ∧ (Panic store ctx msg opts).returnsNormally = true) := by
  constructor
  · intro lg hlg hcb hen
    unfold Panic
    rw [hlg]
    dsimp only
    rw [(levelEnabled_iff _ _).2 hen]
    simp only [Bool.not_true, Bool.false_eq_true, if_false]
    rw [loggerLog_enabled_nopanic store lg PanicLevel msg (getFields ctx opts) hen hcb]
    exact ⟨rfl, trivial⟩
  · intro h
    constructor
    · simp [Panic, h]
    · simp [Panic, h, noEmit]

/-- C9 witness: a plain root context; Panic writes one record and the call
does not return normally. -/
theorem C9_panic_logs_then_aborts_witness :
    (Panic (Context [] [] []).1 (Context [] [] []).2 "m" []).writes
      = [⟨PanicLevel, "m", []⟩]
    ∧ (Panic (Context [] [] []).1 (Context [] [] []).2 "m" []).returnsNormally
      = false := by
  have h := (C9_panic_logs_then_aborts (Context [] [] []).1
    (Context [] [] []).2 "m" []).1 ⟨0, [], [], []⟩ rfl (by simp) (by decide)
  exact ⟨h.1, h.2⟩

/-! ### Claim C10 -/

theorem foldl_applyOpt_err :
    ∀ (opts : List Opt) (o : options),
      (opts.foldl applyOpt o).err =
        opts.foldl
          (fun acc x => match x with | Opt.withError e => e | _ => acc)
          o.err := by
  intro opts
  induction opts with
  | nil => intro o; rfl
  | cons a rest ih =>
      intro o
      have hstep : (applyOpt o a).err =
          (match a with | Opt.withError e => e | _ => o.err) := by
        cases a <;> rfl
      calc ((a :: rest).foldl applyOpt o).err
          = (rest.foldl applyOpt (applyOpt o a)).err := rfl
        _ = rest.foldl
              (fun acc x => match x with | Opt.withError e => e | _ => acc)
              (applyOpt o a).err := ih (applyOpt o a)
        _ = _ := by rw [hstep]; cases a <;> rfl

/-- C10: `getFields` appends the named-error field — under the context's
configured error key, or `DefaultErrorKey` when absent — exactly when the
last `WithError` option in the call supplied a non-nil error (`lastErr opts
= some e`); a nil `WithError`, or no `WithError` at all, adds no error
field. -/
theorem C10_error_field_iff_last_nonnil (ctx : Ctx) (opts : List Opt) :
    getFields ctx opts =
      ((opts.foldl applyOpt ⟨none, []⟩).fields).map mkField
        ++ (match lastErr opts with
            | some e => [⟨errKeyName ctx, .vErr e⟩]
            | none => []) := by
  unfold getFields
  dsimp only
  rw [foldl_applyOpt_err opts ⟨none, []⟩]
  cases h : lastErr opts with
  | none =>
      rw [show (opts.foldl
          (fun acc x => match x with | Opt.withError e => e | _ => acc)
          (options.mk none []).err) = lastErr opts from rfl, h]
      simp
  | some e =>
      rw [show (opts.foldl
          (fun acc x => match x with | Opt.withError e => e | _ => acc)
          (options.mk none []).err) = lastErr opts from rfl, h]

end Clog
